import Mathlib

/-!
Verification of `ephemeris_lite.py` (ecliptic-longitude event finder).

Angles are embedded as rationals (exact arithmetic standing in for the
Python floats).  Instants are an arbitrary type `T`; where `main`'s
window check needs an order we assume `LinearOrder T`.

External collaborators (the skyfield ephemeris and
`almanac.find_discrete`) are not repository code: they are passed in as
function parameters, exactly as the spec treats them (an external
oracle producing candidate crossing times / longitudes).
-/

namespace EphemerisLite

/-- Python's `%` operator on reals with a positive modulus:
`x % m = x - m * floor(x / m)`, the representative of `x` in `[0, m)`
when `0 < m`.  This is the modulo used at `lon.degrees % 360`,
`(λm - λs) % 360` and inside `ang_diff`. -/
def pymod (x m : ℚ) : ℚ := x - m * ⌊x / m⌋

/-- `ang_diff(a, b) = ((a - b + 180) % 360) - 180` (source lines 24-26). -/
def ang_diff (a b : ℚ) : ℚ := pymod (a - b + 180) 360 - 180

/-- The modulo-360 reduction into `[0, 360)` used throughout the code
(`lon.degrees % 360` in `ecl_lon`, `(λm - λs) % 360` for the
composite difference). -/
def normalize (x : ℚ) : ℚ := pymod x 360

/-- `ecl_lon` (source lines 17-22): the skyfield ecliptic-longitude
oracle `lon.degrees` is external, passed in as `lon_degrees`; the
repository code reduces it with `% 360`. -/
def ecl_lon {T : Type} (lon_degrees : T → ℚ) (t : T) : ℚ :=
  pymod (lon_degrees t) 360

/-- `find_events` (source lines 28-36).  `almanac.find_discrete` is the
external skyfield routine; it is passed in as `findDiscrete`, receiving
the sign function, the window endpoints and the step in days
(`step_h / 24`, mirroring `fn_sign.step_days = step_h / 24`).  The
repository code then keeps exactly the candidates `t` with
`abs(ang_diff(fn_val(t), target)) < tol`. -/
def find_events {T : Type} (findDiscrete : (T → Bool) → T → T → ℚ → List T)
    (fn_sign : T → Bool) (fn_val : T → ℚ) (target : ℚ) (t0 t1 : T)
    (step_h : ℚ := 1) (tol : ℚ := 1/100) : List T :=
  (findDiscrete fn_sign t0 t1 (step_h / 24)).filter
    (fun t => decide (|ang_diff (fn_val t) target| < tol))

/-- `f_s = lambda t: ang_diff(ecl_lon(sun, t), λs0) > 0` (source line 65). -/
def f_s {T : Type} (sun_lon : T → ℚ) (lam_s0 : ℚ) (t : T) : Bool :=
  decide (ang_diff (ecl_lon sun_lon t) lam_s0 > 0)

/-- `f_m = lambda t: ang_diff(ecl_lon(moon, t), λm0) > 0` (source line 66). -/
def f_m {T : Type} (moon_lon : T → ℚ) (lam_m0 : ℚ) (t : T) : Bool :=
  decide (ang_diff (ecl_lon moon_lon t) lam_m0 > 0)

/-- `f_dm = lambda t: ang_diff((ecl_lon(moon,t) - ecl_lon(sun,t)) % 360, Δ0) > 0`
(source line 67). -/
def f_dm {T : Type} (moon_lon sun_lon : T → ℚ) (delta0 : ℚ) (t : T) : Bool :=
  decide (ang_diff (pymod (ecl_lon moon_lon t - ecl_lon sun_lon t) 360) delta0 > 0)

/-- The computational core of `main` (source lines 46-73), after input
parsing: validate the window (`sys.exit` on `start_in >= end_in`,
modelled as `Except.error` with the source's message), then take the
initial longitudes, build the three sign functions and run the three
searches.  Time-zone localization and the datetime-to-skyfield
conversion are bijective renamings of instants and are elided (the
instant type `T` is kept abstract); the I/O tail (lines 75-98) only
formats the result. -/
def mainModel {T : Type} [LinearOrder T]
    (sun_lon moon_lon : T → ℚ)
    (findDiscrete : (T → Bool) → T → T → ℚ → List T)
    (start_in end_in : T) :
    Except String (List T × List T × List T) :=
  if start_in ≥ end_in then
    Except.error "结束时间必须晚于开始时间！"
  else
    let t0 := start_in
    let t1 := end_in
    let lam_s0 := ecl_lon sun_lon t0
    let lam_m0 := ecl_lon moon_lon t0
    let delta0 := pymod (lam_m0 - lam_s0) 360
    let ev_s := find_events findDiscrete (f_s sun_lon lam_s0)
      (fun t => ecl_lon sun_lon t) lam_s0 t0 t1
    let ev_m := find_events findDiscrete (f_m moon_lon lam_m0)
      (fun t => ecl_lon moon_lon t) lam_m0 t0 t1
    let ev_dm := find_events findDiscrete (f_dm moon_lon sun_lon delta0)
      (fun t => pymod (ecl_lon moon_lon t - ecl_lon sun_lon t) 360) delta0 t0 t1
    Except.ok (ev_s, ev_m, ev_dm)

/-! ### Arithmetic facts about `pymod` -/

lemma pymod_eq_mul_fract (x m : ℚ) (hm : m ≠ 0) :
    pymod x m = m * Int.fract (x / m) := by
  unfold pymod Int.fract
  field_simp

lemma pymod_nonneg (x m : ℚ) (hm : 0 < m) : 0 ≤ pymod x m := by
  rw [pymod_eq_mul_fract x m hm.ne']
  exact mul_nonneg hm.le (Int.fract_nonneg _)

lemma pymod_lt (x m : ℚ) (hm : 0 < m) : pymod x m < m := by
  rw [pymod_eq_mul_fract x m hm.ne']
  calc m * Int.fract (x / m) < m * 1 :=
        (mul_lt_mul_left hm).mpr (Int.fract_lt_one _)
    _ = m := mul_one m

lemma pymod_add_int_mul (x m : ℚ) (k : ℤ) :
    pymod (x + m * k) m = pymod x m := by
  rcases eq_or_ne m 0 with h | h
  · simp [pymod, h]
  · unfold pymod
    have hdiv : (x + m * k) / m = x / m + k := by
      field_simp
      ring
    rw [hdiv, Int.floor_add_int]
    push_cast
    ring

lemma pymod_eq_self (x m : ℚ) (h0 : 0 ≤ x) (h1 : x < m) : pymod x m = x := by
  have hm : 0 < m := lt_of_le_of_lt h0 h1
  have hfloor : ⌊x / m⌋ = 0 := by
    rw [Int.floor_eq_zero_iff]
    constructor
    · exact div_nonneg h0 hm.le
    · exact (div_lt_one hm).mpr h1
  simp [pymod, hfloor]

/-- Evaluation helper: `pymod x m = y` whenever `y ∈ [0, m)` and
`x = y + m * k` for some integer `k`. -/
lemma pymod_eq_of (x m y : ℚ) (k : ℤ) (hy0 : 0 ≤ y) (hy1 : y < m)
    (hxy : x = y + m * k) : pymod x m = y := by
  rw [hxy, pymod_add_int_mul, pymod_eq_self y m hy0 hy1]

/-- The actual range of `ang_diff`: `[-180, 180)` (the spec asserts
`(-180, 180]`; see the boundary evaluations below). -/
lemma ang_diff_mem_Ico (a b : ℚ) :
    -180 ≤ ang_diff a b ∧ ang_diff a b < 180 := by
  unfold ang_diff
  constructor
  · have := pymod_nonneg (a - b + 180) 360 (by norm_num)
    linarith
  · have := pymod_lt (a - b + 180) 360 (by norm_num)
    linarith

/-! ### Claim theorems -/

/-- C1: for every target, window and candidate set (the list produced by
the external `find_discrete`), every instant returned by `find_events`
satisfies `|ang_diff (fn_val t) target| < tol`: the secondary filter
guarantees the re-evaluated angular distance is strictly below the
tolerance for each element of the output. -/
theorem find_events_tolerance {T : Type}
    (findDiscrete : (T → Bool) → T → T → ℚ → List T)
    (fn_sign : T → Bool) (fn_val : T → ℚ) (target : ℚ) (t0 t1 : T)
    (step_h tol : ℚ) (t : T)
    (ht : t ∈ find_events findDiscrete fn_sign fn_val target t0 t1 step_h tol) :
    |ang_diff (fn_val t) target| < tol := by
  unfold find_events at ht
  simpa using List.of_mem_filter ht

/-- C1 witness: a concrete candidate list `[5]` with `fn_val = id`,
`target = 5`, `tol = 1`; the instant `5` is returned and its angular
distance to the target is below the tolerance. -/
theorem find_events_tolerance_witness :
    ((5:ℚ) ∈ find_events (fun _ _ _ _ => [(5:ℚ)]) (fun _ => true)
      (fun t => t) 5 0 10 1 1) ∧ |ang_diff (5:ℚ) 5| < 1 := by
  have hd : ang_diff (5:ℚ) 5 = 0 := by
    unfold ang_diff
    rw [pymod_eq_of (5 - 5 + 180) 360 180 0 (by norm_num) (by norm_num)
      (by norm_num)]
    norm_num
  have h : (5:ℚ) ∈ find_events (fun _ _ _ _ => [(5:ℚ)]) (fun _ => true)
      (fun t => t) 5 0 10 1 1 := by
    unfold find_events
    refine List.mem_filter.mpr ⟨by simp, ?_⟩
    simp only [decide_eq_true_eq]
    rw [hd]
    norm_num
  exact ⟨h, find_events_tolerance (fun _ _ _ _ => [(5:ℚ)]) (fun _ => true)
    (fun t => t) 5 0 10 1 1 5 h⟩

/-- C2 (code-bug evaluation): at diametrically opposite angles the code
returns `-180`, which lies outside the interval `(-180, 180]` claimed by
the spec and by the source's own docstring `最短角差 (-180°, +180°]`
(line 25).  The code's range is in fact `[-180, 180)` with `-180`, not
`+180`, at the boundary. -/
theorem ang_diff_boundary_eval :
    ang_diff 180 0 = -180 ∧ ¬ (-180 : ℚ) < ang_diff 180 0 := by
  have h : ang_diff 180 0 = -180 := by
    unfold ang_diff
    rw [pymod_eq_of (180 - 0 + 180) 360 0 1 le_rfl (by norm_num) (by norm_num)]
    norm_num
  exact ⟨h, by rw [h]; exact lt_irrefl _⟩

/-- C3: round-trip — for normalized angles `a, b ∈ [0, 360)`,
`normalize (a + ang_diff b a) = b`. -/
theorem normalize_roundtrip (a b : ℚ) (ha0 : 0 ≤ a) (ha1 : a < 360)
    (hb0 : 0 ≤ b) (hb1 : b < 360) :
    normalize (a + ang_diff b a) = b := by
  have h1 : a + ang_diff b a = b + 360 * ((-⌊(b - a + 180) / 360⌋ : ℤ) : ℚ) := by
    unfold ang_diff pymod
    push_cast
    ring
  unfold normalize
  rw [h1, pymod_add_int_mul, pymod_eq_self b 360 hb0 hb1]

/-- C3 witness: the round-trip at `a = 10`, `b = 250`. -/
theorem normalize_roundtrip_witness :
    (0 ≤ (10:ℚ)) ∧ ((10:ℚ) < 360) ∧ (0 ≤ (250:ℚ)) ∧ ((250:ℚ) < 360) ∧
    normalize (10 + ang_diff 250 10) = 250 :=
  ⟨by norm_num, by norm_num, by norm_num, by norm_num,
    normalize_roundtrip 10 250 (by norm_num) (by norm_num) (by norm_num)
      (by norm_num)⟩

/-- C4 (code-bug evaluation): when `a - b ≡ 180 (mod 360)` the code
returns `-180` on both sides — `ang_diff 270 90 = ang_diff 90 270 = -180`
— so at the boundary the result is not `+180` (the convention the spec
and the source docstring announce) and antisymmetry indeed fails there
(`-180 ≠ -(-180)`). -/
theorem ang_diff_antisym_boundary_eval :
    ang_diff 270 90 = -180 ∧ ang_diff 90 270 = -180 ∧
    ang_diff 270 90 ≠ 180 ∧ ang_diff 270 90 ≠ -ang_diff 90 270 := by
  have h1 : ang_diff 270 90 = -180 := by
    unfold ang_diff
    rw [pymod_eq_of (270 - 90 + 180) 360 0 1 le_rfl (by norm_num) (by norm_num)]
    norm_num
  have h2 : ang_diff 90 270 = -180 := by
    unfold ang_diff
    rw [pymod_eq_of (90 - 270 + 180) 360 0 0 le_rfl (by norm_num) (by norm_num)]
    norm_num
  refine ⟨h1, h2, ?_, ?_⟩
  · rw [h1]
    norm_num
  · rw [h1, h2]
    norm_num

/-- C5: the three sign functions all use the strict `> 0` comparison:
each returns `true` iff the tracked angular difference is strictly
positive and `false` iff it is `≤ 0`; in particular an exact-zero
difference is attributed to the `false` side — the same single
convention across the simple (`f_s`, `f_m`) and composite (`f_dm`)
sign functions. -/
theorem sign_fn_convention {T : Type} (sun_lon moon_lon : T → ℚ)
    (lam_s0 lam_m0 delta0 : ℚ) (t : T) :
    (f_s sun_lon lam_s0 t = true ↔ 0 < ang_diff (ecl_lon sun_lon t) lam_s0) ∧
    (f_s sun_lon lam_s0 t = false ↔ ang_diff (ecl_lon sun_lon t) lam_s0 ≤ 0) ∧
    (f_m moon_lon lam_m0 t = true ↔ 0 < ang_diff (ecl_lon moon_lon t) lam_m0) ∧
    (f_m moon_lon lam_m0 t = false ↔ ang_diff (ecl_lon moon_lon t) lam_m0 ≤ 0) ∧
    (f_dm moon_lon sun_lon delta0 t = true ↔
      0 < ang_diff (pymod (ecl_lon moon_lon t - ecl_lon sun_lon t) 360) delta0) ∧
    (f_dm moon_lon sun_lon delta0 t = false ↔
      ang_diff (pymod (ecl_lon moon_lon t - ecl_lon sun_lon t) 360) delta0 ≤ 0) := by
  unfold f_s f_m f_dm
  simp [not_lt]

/-- C6: candidates whose re-validated angular difference fails the
tolerance test are omitted silently: `find_events` is a total function
(no error path exists in the source for this), and its output is
exactly the order-preserving subsequence (a `List.Sublist`) of the
candidate times that pass the test. -/
theorem find_events_subsequence {T : Type}
    (findDiscrete : (T → Bool) → T → T → ℚ → List T)
    (fn_sign : T → Bool) (fn_val : T → ℚ) (target : ℚ) (t0 t1 : T)
    (step_h tol : ℚ) :
    (find_events findDiscrete fn_sign fn_val target t0 t1 step_h tol).Sublist
      (findDiscrete fn_sign t0 t1 (step_h / 24)) ∧
    ∀ t : T, t ∈ find_events findDiscrete fn_sign fn_val target t0 t1 step_h tol ↔
      t ∈ findDiscrete fn_sign t0 t1 (step_h / 24) ∧
        |ang_diff (fn_val t) target| < tol := by
  constructor
  · exact List.filter_sublist _
  · intro t
    unfold find_events
    rw [List.mem_filter]
    simp

/-- C7: an invalid window (`start_in >= end_in`) terminates `main` at
once with the source's error message (`sys.exit`, modelled as
`Except.error`): no search is run and no result is produced. -/
theorem main_invalid_window {T : Type} [LinearOrder T]
    (sun_lon moon_lon : T → ℚ)
    (findDiscrete : (T → Bool) → T → T → ℚ → List T)
    (start_in end_in : T) (h : start_in ≥ end_in) :
    mainModel sun_lon moon_lon findDiscrete start_in end_in =
      Except.error "结束时间必须晚于开始时间！" := by
  unfold mainModel
  rw [if_pos h]

/-- C7 witness: a concrete inverted window (start 1, end 0) over
rational instants is rejected with the error message. -/
theorem main_invalid_window_witness :
    ((1:ℚ) ≥ 0) ∧
    mainModel (fun _ => (0:ℚ)) (fun _ => (0:ℚ)) (fun _ _ _ _ => [])
      (1:ℚ) 0 = Except.error "结束时间必须晚于开始时间！" :=
  ⟨by norm_num, main_invalid_window (fun _ => (0:ℚ)) (fun _ => (0:ℚ))
    (fun _ _ _ _ => []) 1 0 (by norm_num)⟩

/-- Shared helper: a non-positive tolerance makes the tolerance filter
unsatisfiable (`|d| < tol ≤ 0` contradicts `0 ≤ |d|`), so `find_events`
returns the empty list. -/
lemma find_events_eq_nil_of_tol_nonpos {T : Type}
    (findDiscrete : (T → Bool) → T → T → ℚ → List T)
    (fn_sign : T → Bool) (fn_val : T → ℚ) (target : ℚ) (t0 t1 : T)
    (step_h tol : ℚ) (htol : tol ≤ 0) :
    find_events findDiscrete fn_sign fn_val target t0 t1 step_h tol = [] := by
  unfold find_events
  refine List.filter_eq_nil_iff.mpr ?_
  intro a _
  simp only [decide_eq_true_eq]
  exact fun hlt => absurd (hlt.trans_le htol) (abs_nonneg _).not_lt

/-- C8 counterexample: the claim says a call with `tol <= 0` fails with
a configuration error rather than proceeding; in the source there is no
validation and no error path at all.  At the concrete input
`tol = 0` with candidate list `[3]`, `fn_val = id` and `target = 3`
(the candidate matches the target exactly), `find_events` proceeds and
returns the empty list as an ordinary result. -/
theorem find_events_nonpos_tol_proceeds :
    find_events (fun _ _ _ _ => [(3:ℚ)]) (fun _ => true) (fun t => t)
      3 0 10 1 0 = [] :=
  find_events_eq_nil_of_tol_nonpos (fun _ _ _ _ => [(3:ℚ)]) (fun _ => true)
    (fun t => t) 3 0 10 1 0 le_rfl

/-- C8 amended: `find_events` performs no validation of `step_h` or
`tol`: a non-positive `step_h` is passed unchecked to the external
`find_discrete`, and with `tol ≤ 0` the tolerance filter rejects every
candidate, so the result is the empty list, returned normally with no
error raised. -/
theorem find_events_nonpos_tol_empty {T : Type}
    (findDiscrete : (T → Bool) → T → T → ℚ → List T)
    (fn_sign : T → Bool) (fn_val : T → ℚ) (target : ℚ) (t0 t1 : T)
    (step_h tol : ℚ) (htol : tol ≤ 0) :
    find_events findDiscrete fn_sign fn_val target t0 t1 step_h tol = [] :=
  find_events_eq_nil_of_tol_nonpos findDiscrete fn_sign fn_val target t0 t1
    step_h tol htol

/-- C8 witness: the amended fact at `tol = 0` with candidate list `[7]`. -/
theorem find_events_nonpos_tol_empty_witness :
    ((0:ℚ) ≤ 0) ∧
    find_events (fun _ _ _ _ => [(7:ℚ)]) (fun _ => true) (fun t => t)
      7 0 10 1 0 = [] :=
  ⟨le_rfl, find_events_nonpos_tol_empty (fun _ _ _ _ => [(7:ℚ)])
    (fun _ => true) (fun t => t) 7 0 10 1 0 le_rfl⟩

/-- C9: when the candidate crossing times produced by the external
`find_discrete` are strictly increasing, the sequence returned by
`find_events` is strictly increasing in time and contains no duplicate
instants (filtering preserves the order and keeps at most one copy of
each candidate). -/
theorem find_events_strict_increasing {T : Type} [LinearOrder T]
    (findDiscrete : (T → Bool) → T → T → ℚ → List T)
    (fn_sign : T → Bool) (fn_val : T → ℚ) (target : ℚ) (t0 t1 : T)
    (step_h tol : ℚ)
    (hmono : (findDiscrete fn_sign t0 t1 (step_h / 24)).Pairwise (· < ·)) :
    (find_events findDiscrete fn_sign fn_val target t0 t1 step_h tol).Pairwise
      (· < ·) ∧
    (find_events findDiscrete fn_sign fn_val target t0 t1 step_h tol).Nodup := by
  have hsub :
      (find_events findDiscrete fn_sign fn_val target t0 t1 step_h tol).Sublist
        (findDiscrete fn_sign t0 t1 (step_h / 24)) := List.filter_sublist _
  have hp := List.Pairwise.sublist hsub hmono
  exact ⟨hp, hp.imp ne_of_lt⟩

/-- C9 witness: with strictly increasing candidates `[1, 2]` the output
is strictly increasing and duplicate-free. -/
theorem find_events_strict_increasing_witness :
    (([(1:ℚ), 2]).Pairwise (· < ·)) ∧
    ((find_events (fun _ _ _ _ => [(1:ℚ), 2]) (fun _ => true) (fun t => t)
        1 0 10 1 10).Pairwise (· < ·) ∧
      (find_events (fun _ _ _ _ => [(1:ℚ), 2]) (fun _ => true) (fun t => t)
        1 0 10 1 10).Nodup) := by
  have hp : ([(1:ℚ), 2]).Pairwise (· < ·) := by
    norm_num [List.pairwise_cons]
  exact ⟨hp, find_events_strict_increasing (fun _ _ _ _ => [(1:ℚ), 2])
    (fun _ => true) (fun t => t) 1 0 10 1 10 hp⟩

/-- C10: `ang_diff` is well-defined on the circle: adding `360 * k`
(any integer `k`) to either argument never changes the result, so the
result depends only on the residue of `a - b` modulo 360 and
pre-normalizing either argument is harmless. -/
theorem ang_diff_period (a b : ℚ) (k : ℤ) :
    ang_diff (a + 360 * k) b = ang_diff a b ∧
    ang_diff a (b + 360 * k) = ang_diff a b := by
  constructor
  · unfold ang_diff
    rw [(by ring : a + 360 * (k:ℚ) - b + 180 = a - b + 180 + 360 * (k:ℚ)),
      pymod_add_int_mul]
  · unfold ang_diff
    rw [(by push_cast; ring :
        a - (b + 360 * (k:ℚ)) + 180 = a - b + 180 + 360 * ((-k : ℤ) : ℚ)),
      pymod_add_int_mul]

end EphemerisLite
